import Mathlib

/-
Verification of the reactive local-motion-planning core of the
socially-aware-walker repository (path_finding_node.cpp).

The C++ node is shallowly embedded below.  Machine doubles are modelled by
exact rationals; the transcendental library calls (std::sin, std::cos,
std::hypot) are supplied as oracle parameters of the model, since their
values are irrational and the node only combines their results with field
operations, comparisons and rounding.  Raw occupancy-grid reads
(map.data[idx]) are modelled by a total function on integer indices: the
C++ code indexes the cell vector without bounds checks in several places,
so the value read at an out-of-range index is unspecified memory; a total
function quantifies over every possible such memory content.
-/

/-
The arithmetic of the embedding is exact rational arithmetic; the kernel
must be able to evaluate it on the concrete maps of the witnesses and
counterexamples below, so the four field operations of ℚ are restored to
their definitional transparency here (they are by-need opaque-for-unfolding
in the library purely as an elaboration-performance measure; no axiom or
soundness property is involved in unsealing them).
-/
set_option allowUnsafeReducibility true
attribute [semireducible] Rat.add Rat.mul Rat.sub Rat.inv Rat.ofScientific

/-- A 2D point with rational coordinates (models geometry_msgs Point,
z is irrelevant to every planar computation of the node). -/
structure Pt where
  x : ℚ
  y : ℚ
deriving DecidableEq, Repr

/-- A planar rigid transform: rotation matrix entries and translation
(models tf::StampedTransform restricted to the plane). -/
structure Rigid2 where
  r11 : ℚ
  r12 : ℚ
  r21 : ℚ
  r22 : ℚ
  tx : ℚ
  ty : ℚ
deriving DecidableEq, Repr

/-- Apply a rigid transform to a point (tf operator* on vectors). -/
def rigidApply (f : Rigid2) (p : Pt) : Pt :=
  ⟨f.r11 * p.x + f.r12 * p.y + f.tx, f.r21 * p.x + f.r22 * p.y + f.ty⟩

/-- Inverse of a rigid transform: transposed rotation, translation mapped
through the transposed rotation and negated (tf::Transform::inverse). -/
def rigidInv (f : Rigid2) : Rigid2 :=
  ⟨f.r11, f.r21, f.r12, f.r22,
   -(f.r11 * f.tx + f.r21 * f.ty), -(f.r12 * f.tx + f.r22 * f.ty)⟩

/-- The identity transform. -/
def rigidId : Rigid2 := ⟨1, 0, 0, 1, 0, 0⟩

/-- C++ conversion of a floating value to int: truncation toward zero. -/
def cppTrunc (q : ℚ) : ℤ :=
  if 0 ≤ q then ⌊q⌋ else -⌊-q⌋

/-- C++ std::round: rounding half away from zero. -/
def roundC (q : ℚ) : ℤ :=
  if 0 ≤ q then ⌊q + 1/2⌋ else -⌊-q + 1/2⌋

/-- An occupancy-grid snapshot (nav_msgs::OccupancyGrid).  `data` is total
on ℤ: in-range indices hold the published cell costs in [-1, 100]; the
value at any other index models whatever the unchecked C++ vector access
would read. -/
structure GridMap where
  resolution : ℚ
  originX : ℚ
  originY : ℚ
  width : ℤ
  height : ℤ
  data : ℤ → ℤ

/-- Danger-cost threshold (kThresObstacleDangerCost). -/
def kThresObstacleDangerCost : ℤ := 80

/-- Kernel size used by the local-cost scans:
`int(std::floor(radius / resolution))` (the int conversion of a floored
value is its floor), forced odd by adding one when even. -/
def kernelOf (radius res : ℚ) : ℤ :=
  let k := ⌊radius / res⌋
  k + (if Int.tmod k 2 = 0 then 1 else 0)

/-- Window half-width: `kernel_size / 2` (C++ integer division). -/
def boundOf (radius res : ℚ) : ℤ :=
  Int.tdiv (kernelOf radius res) 2

/-- The loop range `-bound ..= bound` as a list. -/
def offs (b : ℤ) : List ℤ :=
  (List.range (2 * b + 1).toNat).map (fun k => -b + (k : ℤ))

/-- get_local_max_cost: scan a square window centered on `target`, skip
offset cells whose linear index leaves [0, width*height-1] or whose column
(linear index modulo width, C++ truncated %) differs from the center's
column by more than the half-width, and take the running maximum of the
surviving cell costs starting from 0. -/
def get_local_max_cost (m : GridMap) (target : ℤ) : ℤ :=
  let b := boundOf (6/10) m.resolution
  (offs b).foldl (fun cost y =>
    (offs b).foldl (fun cost x =>
      let op := target + x + m.width * y
      if op < 0 ∨ op > m.width * m.height - 1 then cost
      else if |Int.tmod op m.width - Int.tmod target m.width| > b then cost
      else if m.data op > cost then m.data op else cost) cost) 0

/-- get_local_avg_cost: same window/guards with a 1.0 m radius, summing the
surviving costs and dividing (C++ truncated integer division) by the
nominal kernel cell count. -/
def get_local_avg_cost (m : GridMap) (target : ℤ) : ℤ :=
  let k := kernelOf 1 m.resolution
  let b := Int.tdiv k 2
  Int.tdiv
    ((offs b).foldl (fun cost y =>
      (offs b).foldl (fun cost x =>
        let op := target + x + m.width * y
        if op < 0 ∨ op > m.width * m.height - 1 then cost
        else if |Int.tmod op m.width - Int.tmod target m.width| > b then cost
        else cost + m.data op) cost) 0)
    (k * k)

/-- The list of linear indices actually read by one window scan, in loop
order: exactly the offset cells that pass both guards of the C++ loops. -/
def windowReadsWH (w h b target : ℤ) : List ℤ :=
  (offs b).bind (fun y =>
    (offs b).filterMap (fun x =>
      let op := target + x + w * y
      if 0 ≤ op ∧ op ≤ w * h - 1 ∧ |Int.tmod op w - Int.tmod target w| ≤ b
      then some op else none))

lemma foldl_congr_fun {β γ : Type} {f g : γ → β → γ} :
    ∀ (L : List β), (∀ c x, x ∈ L → f c x = g c x) →
      ∀ (a : γ), L.foldl f a = L.foldl g a := by
  intro L
  induction L with
  | nil => intro _ _; rfl
  | cons x L ih =>
      intro h a
      simp only [List.foldl_cons]
      rw [h a x (by simp)]
      exact ih (fun c z hz => h c z (by simp [hz])) _

lemma foldl_bind_eq {α β γ : Type} (g : α → List β) (f : γ → β → γ) :
    ∀ (L : List α) (a : γ),
      (L.bind g).foldl f a = L.foldl (fun c x => (g x).foldl f c) a := by
  intro L
  induction L with
  | nil => intro a; rfl
  | cons x L ih =>
      intro a
      simp only [List.cons_bind, List.foldl_append, List.foldl_cons]
      exact ih _

lemma foldl_filterMap_eq {β β2 γ : Type} (p : β → Option β2) (f : γ → β2 → γ) :
    ∀ (L : List β) (a : γ),
      (L.filterMap p).foldl f a
        = L.foldl (fun c x => (p x).elim c (fun y => f c y)) a := by
  intro L
  induction L with
  | nil => intro a; rfl
  | cons x L ih =>
      intro a
      cases h : p x with
      | none => simp only [List.filterMap_cons, h, List.foldl_cons, Option.elim]; exact ih _
      | some y => simp only [List.filterMap_cons, h, List.foldl_cons, Option.elim]; exact ih _

/-- The window-scan guard of the C++ loops, as one decidable condition. -/
lemma guard_step_eq (w h b target : ℤ) (upd : ℤ → ℤ → ℤ) (c x y : ℤ) :
    ((if 0 ≤ target + x + w * y ∧ target + x + w * y ≤ w * h - 1 ∧
         |Int.tmod (target + x + w * y) w - Int.tmod target w| ≤ b
       then some (target + x + w * y) else none).elim c (fun op => upd c op))
    = (if target + x + w * y < 0 ∨ target + x + w * y > w * h - 1 then c
       else if |Int.tmod (target + x + w * y) w - Int.tmod target w| > b then c
       else upd c (target + x + w * y)) := by
  by_cases h1 : 0 ≤ target + x + w * y
  · by_cases h2 : target + x + w * y ≤ w * h - 1
    · by_cases h3 : |Int.tmod (target + x + w * y) w - Int.tmod target w| ≤ b
      · rw [if_pos ⟨h1, h2, h3⟩, if_neg (by omega : ¬(target + x + w * y < 0 ∨
          target + x + w * y > w * h - 1)), if_neg (by omega :
          ¬(|Int.tmod (target + x + w * y) w - Int.tmod target w| > b))]
        rfl
      · rw [if_neg (fun hc => h3 hc.2.2), if_neg (by omega : ¬(target + x + w * y < 0 ∨
          target + x + w * y > w * h - 1)), if_pos (by omega :
          |Int.tmod (target + x + w * y) w - Int.tmod target w| > b)]
        rfl
    · rw [if_neg (fun hc => h2 hc.2.1), if_pos (by omega : target + x + w * y < 0 ∨
        target + x + w * y > w * h - 1)]
      rfl
  · rw [if_neg (fun hc => h1 hc.1), if_pos (by omega : target + x + w * y < 0 ∨
      target + x + w * y > w * h - 1)]
    rfl

/-- get_local_max_cost equals folding max over exactly the read cells. -/
lemma max_cost_eq_fold_reads (m : GridMap) (target : ℤ) :
    get_local_max_cost m target
      = (windowReadsWH m.width m.height (boundOf (6/10) m.resolution) target).foldl
          (fun c i => if m.data i > c then m.data i else c) 0 := by
  unfold get_local_max_cost windowReadsWH
  dsimp only
  rw [foldl_bind_eq]
  apply Eq.symm
  apply foldl_congr_fun
  intro c y _
  rw [foldl_filterMap_eq]
  apply foldl_congr_fun
  intro c' x _
  dsimp only
  exact guard_step_eq m.width m.height (boundOf (6/10) m.resolution) target
    (fun c i => if m.data i > c then m.data i else c) c' x y

/-- get_local_avg_cost equals summing over exactly the read cells, then
dividing by the nominal kernel cell count. -/
lemma avg_cost_eq_fold_reads (m : GridMap) (target : ℤ) :
    get_local_avg_cost m target
      = Int.tdiv
          ((windowReadsWH m.width m.height (Int.tdiv (kernelOf 1 m.resolution) 2) target).foldl
            (fun c i => c + m.data i) 0)
          (kernelOf 1 m.resolution * kernelOf 1 m.resolution) := by
  unfold get_local_avg_cost windowReadsWH
  dsimp only
  congr 1
  rw [foldl_bind_eq]
  apply Eq.symm
  apply foldl_congr_fun
  intro c y _
  rw [foldl_filterMap_eq]
  apply foldl_congr_fun
  intro c' x _
  dsimp only
  exact guard_step_eq m.width m.height (Int.tdiv (kernelOf 1 m.resolution) 2) target
    (fun c i => c + m.data i) c' x y

/-- Every index in a window-read list is in linear range and within the
column half-width of the center. -/
lemma windowReads_bounds (w h b target : ℤ) :
    ∀ op ∈ windowReadsWH w h b target,
      0 ≤ op ∧ op ≤ w * h - 1 ∧ |Int.tmod op w - Int.tmod target w| ≤ b := by
  intro op hop
  unfold windowReadsWH at hop
  rw [List.mem_bind] at hop
  obtain ⟨y, _, hy⟩ := hop
  rw [List.mem_filterMap] at hy
  obtain ⟨x, _, hx⟩ := hy
  by_cases hg : 0 ≤ target + x + w * y ∧ target + x + w * y ≤ w * h - 1 ∧
      |Int.tmod (target + x + w * y) w - Int.tmod target w| ≤ b
  · rw [if_pos hg] at hx
    cases hx
    exact hg
  · rw [if_neg hg] at hx
    cases hx

/-- Running-max fold: the result dominates the start value and every listed
cost, and is either the start value or one of the listed costs. -/
lemma fold_max_spec (d : ℤ → ℤ) :
    ∀ (L : List ℤ) (c : ℤ),
      c ≤ L.foldl (fun a i => if d i > a then d i else a) c
      ∧ (∀ i ∈ L, d i ≤ L.foldl (fun a i => if d i > a then d i else a) c)
      ∧ (L.foldl (fun a i => if d i > a then d i else a) c = c
         ∨ ∃ i ∈ L, L.foldl (fun a i => if d i > a then d i else a) c = d i) := by
  intro L
  induction L with
  | nil => intro c; exact ⟨le_refl _, by simp, Or.inl rfl⟩
  | cons x L ih =>
      intro c
      simp only [List.foldl_cons]
      by_cases hx : d x > c
      · rw [if_pos hx]
        obtain ⟨h1, h2, h3⟩ := ih (d x)
        refine ⟨le_trans (le_of_lt hx) h1, ?_, ?_⟩
        · intro i hi
          rcases List.mem_cons.mp hi with h | h
          · exact h ▸ h1
          · exact h2 i h
        · rcases h3 with h | ⟨i, hi, h⟩
          · exact Or.inr ⟨x, by simp, h⟩
          · exact Or.inr ⟨i, by simp [hi], h⟩
      · rw [if_neg hx]
        obtain ⟨h1, h2, h3⟩ := ih c
        refine ⟨h1, ?_, ?_⟩
        · intro i hi
          rcases List.mem_cons.mp hi with h | h
          · exact h ▸ le_trans (by omega) h1
          · exact h2 i h
        · rcases h3 with h | ⟨i, hi, h⟩
          · exact Or.inl h
          · exact Or.inr ⟨i, by simp [hi], h⟩

/-- C3.  The window scans of `get_local_max_cost` and `get_local_avg_cost`
read only offset cells whose linear index is in [0, width*height-1] and
whose column is within the window half-width of the center's column: every
index in the read list satisfies both bounds, and consequently the two
cost functions depend only on the cell data inside that region (two maps
of the same geometry that agree there yield identical costs, so cells that
merely fall in linear range on a wrapped row are never read). -/
theorem max_avg_cost_no_row_wrap (m m' : GridMap) (t : ℤ)
    (hw : m'.width = m.width) (hh : m'.height = m.height)
    (hres : m'.resolution = m.resolution) :
    (∀ op ∈ windowReadsWH m.width m.height (boundOf (6/10) m.resolution) t,
       0 ≤ op ∧ op ≤ m.width * m.height - 1 ∧
       |Int.tmod op m.width - Int.tmod t m.width| ≤ boundOf (6/10) m.resolution)
    ∧ (∀ op ∈ windowReadsWH m.width m.height (Int.tdiv (kernelOf 1 m.resolution) 2) t,
       0 ≤ op ∧ op ≤ m.width * m.height - 1 ∧
       |Int.tmod op m.width - Int.tmod t m.width| ≤ Int.tdiv (kernelOf 1 m.resolution) 2)
    ∧ ((∀ i ∈ Finset.Icc 0 (m.width * m.height - 1),
         |Int.tmod i m.width - Int.tmod t m.width| ≤ boundOf (6/10) m.resolution →
           m.data i = m'.data i)
       → get_local_max_cost m t = get_local_max_cost m' t)
    ∧ ((∀ i ∈ Finset.Icc 0 (m.width * m.height - 1),
         |Int.tmod i m.width - Int.tmod t m.width| ≤ Int.tdiv (kernelOf 1 m.resolution) 2 →
           m.data i = m'.data i)
       → get_local_avg_cost m t = get_local_avg_cost m' t) := by
  refine ⟨windowReads_bounds _ _ _ _, windowReads_bounds _ _ _ _, ?_, ?_⟩
  · intro hagree
    rw [max_cost_eq_fold_reads m, max_cost_eq_fold_reads m', hw, hh, hres]
    apply foldl_congr_fun
    intro c i hi
    obtain ⟨hb1, hb2, hb3⟩ := windowReads_bounds m.width m.height
      (boundOf (6/10) m.resolution) t i hi
    rw [hagree i (Finset.mem_Icc.mpr ⟨hb1, hb2⟩) hb3]
  · intro hagree
    rw [avg_cost_eq_fold_reads m, avg_cost_eq_fold_reads m', hw, hh, hres]
    congr 1
    apply foldl_congr_fun
    intro c i hi
    obtain ⟨hb1, hb2, hb3⟩ := windowReads_bounds m.width m.height
      (Int.tdiv (kernelOf 1 m.resolution) 2) t i hi
    rw [hagree i (Finset.mem_Icc.mpr ⟨hb1, hb2⟩) hb3]

/-- First map for the C3 witness: 3 x 1 grid at resolution 1. -/
def c3MapA : GridMap := ⟨1, 0, 0, 3, 1, fun i => if i = 1 then 5 else 7⟩

/-- Second map for the C3 witness: agrees with the first on the single cell
the window around index 1 can read, differs everywhere else. -/
def c3MapB : GridMap := ⟨1, 0, 0, 3, 1, fun i => if i = 1 then 5 else 9⟩

/-- Witness for C3 at a concrete pair of maps. -/
theorem max_avg_cost_no_row_wrap_witness :
    get_local_max_cost c3MapA 1 = get_local_max_cost c3MapB 1
    ∧ get_local_avg_cost c3MapA 1 = get_local_avg_cost c3MapB 1 := by
  have h := max_avg_cost_no_row_wrap c3MapA c3MapB 1 rfl rfl rfl
  exact ⟨h.2.2.1 (by decide), h.2.2.2 (by decide)⟩

/-- C7 (amended).  get_local_max_cost is total: it returns a value that is
at least 0, dominates every surviving (actually read) cell cost, and is
either 0 or one of the surviving cell costs; it returns 0 when no cell
survives the guards and 0 when every surviving cell is free.  (The
original claim's clause that an out-of-range center index always yields 0
is false: surviving in-range cells can still contribute, see the
counterexample.) -/
theorem max_cost_total_characterization (m : GridMap) (t : ℤ) :
    0 ≤ get_local_max_cost m t
    ∧ (∀ i ∈ windowReadsWH m.width m.height (boundOf (6/10) m.resolution) t,
         m.data i ≤ get_local_max_cost m t)
    ∧ (get_local_max_cost m t = 0
       ∨ ∃ i ∈ windowReadsWH m.width m.height (boundOf (6/10) m.resolution) t,
           get_local_max_cost m t = m.data i)
    ∧ (windowReadsWH m.width m.height (boundOf (6/10) m.resolution) t = []
       → get_local_max_cost m t = 0)
    ∧ ((∀ i ∈ windowReadsWH m.width m.height (boundOf (6/10) m.resolution) t,
          m.data i = 0)
       → get_local_max_cost m t = 0) := by
  have hfold := max_cost_eq_fold_reads m t
  obtain ⟨h1, h2, h3⟩ := fold_max_spec m.data
    (windowReadsWH m.width m.height (boundOf (6/10) m.resolution) t) 0
  refine ⟨hfold ▸ h1, fun i hi => hfold ▸ h2 i hi, ?_, ?_, ?_⟩
  · rcases h3 with h | ⟨i, hi, h⟩
    · exact Or.inl (hfold ▸ h)
    · exact Or.inr ⟨i, hi, hfold ▸ h⟩
  · intro hempty
    rw [hfold, hempty]
    rfl
  · intro hfree
    rcases h3 with h | ⟨i, hi, h⟩
    · exact hfold ▸ h
    · rw [hfold, h, hfree i hi]

/-- Map for the C7 counterexample: 5 x 2 grid at resolution 0.3
(window half-width 1); cell 5 (row 1, column 0) has cost 50. -/
def c7Map : GridMap := ⟨3/10, 0, 0, 5, 2, fun i => if i = 5 then 50 else 0⟩

/-- Counterexample to C7 as stated: the center index -1 is out of range,
yet get_local_max_cost returns 50, not 0 — the offset cell with linear
index 5 passes both per-cell guards (5 is in range and
|tmod 5 5 - tmod (-1) 5| = |0 - (-1)| = 1 ≤ 1) and contributes its cost. -/
theorem max_cost_invalid_index_counterexample :
    (-1 : ℤ) < 0
    ∧ get_local_max_cost c7Map (-1) = 50
    ∧ get_local_max_cost c7Map (-1) ≠ 0 := by decide

/-- All-free map for the C7 witness. -/
def c7FreeMap : GridMap := ⟨3/10, 0, 0, 5, 2, fun _ => 0⟩

/-- Witness for C7 (amended) at a concrete map: an all-free kernel gives 0. -/
theorem max_cost_total_characterization_witness :
    get_local_max_cost c7FreeMap 6 = 0 := by
  have h := max_cost_total_characterization c7FreeMap 6
  exact h.2.2.2.2 (by decide)

/-- Lateral tracking tolerance (kMaxLateralDisRobot2TrackedPt, 0.6 m). -/
def kMaxLateralDis : ℚ := 6/10

/-- A path message: waypoints in the reference frame plus the header
timestamp and frame id (nav_msgs::Path restricted to what the node uses). -/
structure PathMsg where
  poses : List Pt
  stamp : ℚ
  frameId : String
deriving DecidableEq, Repr

/-- Rasterize a robot-frame point into a linear cell index:
`round((x - origin)/resolution)` per axis, row-major. -/
def cellIdxOf (m : GridMap) (p : Pt) : ℤ :=
  roundC ((p.y - m.originY) / m.resolution) * m.width
    + roundC ((p.x - m.originX) / m.resolution)

/-- is_subgoal_safe: false for a null or empty path; otherwise transform
the first waypoint into robot frame and require its smoothed cost below
the danger threshold and its raw cell cost known. -/
def is_subgoal_safe (m : GridMap) (path : Option PathMsg) (xf : Rigid2) : Bool :=
  match path with
  | none => false
  | some pm =>
    match pm.poses with
    | [] => false
    | wp :: _ =>
      let idx := cellIdxOf m (rigidApply xf wp)
      if get_local_max_cost m idx ≥ kThresObstacleDangerCost ∨ m.data idx < 0
      then false else true

/-- is_path_safe: false for a null or empty path; otherwise every waypoint,
transformed into robot frame, must pass the same check. -/
def is_path_safe (m : GridMap) (path : Option PathMsg) (xf : Rigid2) : Bool :=
  match path with
  | none => false
  | some pm =>
    match pm.poses with
    | [] => false
    | l =>
      l.all (fun wp =>
        let idx := cellIdxOf m (rigidApply xf wp)
        if get_local_max_cost m idx ≥ kThresObstacleDangerCost ∨ m.data idx < 0
        then false else true)

/-- is_path_deprecated: true for a null or empty path, or when the path is
older than 5 seconds. -/
def is_path_deprecated (now : ℚ) (path : Option PathMsg) : Bool :=
  match path with
  | none => true
  | some pm =>
    match pm.poses with
    | [] => true
    | _ => if now - pm.stamp > 5 then true else false

/-- The tracked-waypoint index of is_robot_following_path:
`int(pathLength * (0.99 - progress))` (C++ int conversion truncates). -/
def trackedIndex (len : ℕ) (progress : ℚ) : ℤ :=
  cppTrunc ((len : ℚ) * (99/100 - progress))

/-- is_robot_following_path: false for a null path or one with no
waypoints; otherwise transform the tracked waypoint into robot frame and
require its lateral offset strictly below the tolerance.  (For a progress
value outside [0, 0.99] the C++ vector access is out of bounds; the model
reads a default point there, C9 shows the access is in bounds under the
documented precondition.) -/
def is_robot_following_path (path : Option PathMsg) (progress : ℚ) (xf : Rigid2) : Bool :=
  match path with
  | none => false
  | some pm =>
    if pm.poses.length < 1 then false
    else
      let ti := trackedIndex pm.poses.length progress
      let tb := rigidApply xf (pm.poses.getD ti.toNat ⟨0, 0⟩)
      if |tb.y| ≥ kMaxLateralDis then false else true

/-- C8.  On a null path or a path with zero waypoints every predicate
resolves to the conservative answer: is_subgoal_safe and is_path_safe
return false, is_path_deprecated returns true, and
is_robot_following_path returns false, for every map, transform, clock
value, progress value, stamp and frame id. -/
theorem predicates_conservative_on_empty_path (m : GridMap) (xf : Rigid2)
    (now progress stamp : ℚ) (frame : String) :
    is_subgoal_safe m none xf = false
    ∧ is_subgoal_safe m (some ⟨[], stamp, frame⟩) xf = false
    ∧ is_path_safe m none xf = false
    ∧ is_path_safe m (some ⟨[], stamp, frame⟩) xf = false
    ∧ is_path_deprecated now none = true
    ∧ is_path_deprecated now (some ⟨[], stamp, frame⟩) = true
    ∧ is_robot_following_path none progress xf = false
    ∧ is_robot_following_path (some ⟨[], stamp, frame⟩) progress xf = false := by
  refine ⟨rfl, rfl, rfl, rfl, rfl, rfl, rfl, ?_⟩
  simp [is_robot_following_path]

/-- C9.  For a non-empty path and a tracking progress in [0, 0.99] the
tracked-waypoint index pathLength * (0.99 - progress), truncated to int,
lies in [0, pathLength - 1], so the waypoint array access of
is_robot_following_path is in bounds. -/
theorem tracked_index_in_bounds (len : ℕ) (progress : ℚ)
    (hlen : 1 ≤ len) (h0 : 0 ≤ progress) (h1 : progress ≤ 99/100) :
    0 ≤ trackedIndex len progress
    ∧ trackedIndex len progress < (len : ℤ)
    ∧ (trackedIndex len progress).toNat < len := by
  have hq : (0 : ℚ) ≤ (len : ℚ) * (99/100 - progress) :=
    mul_nonneg (by positivity) (by linarith)
  have htr : trackedIndex len progress = ⌊(len : ℚ) * (99/100 - progress)⌋ := by
    unfold trackedIndex cppTrunc
    rw [if_pos hq]
  have hlenQ : (1 : ℚ) ≤ (len : ℚ) := by exact_mod_cast hlen
  have hlt : (len : ℚ) * (99/100 - progress) < ((len : ℤ) : ℚ) := by
    push_cast
    nlinarith
  have hfl : ⌊(len : ℚ) * (99/100 - progress)⌋ < (len : ℤ) := Int.floor_lt.mpr hlt
  have hge : 0 ≤ ⌊(len : ℚ) * (99/100 - progress)⌋ := Int.floor_nonneg.mpr hq
  refine ⟨htr ▸ hge, htr ▸ hfl, ?_⟩
  rw [htr]
  omega

/-- Witness for C9 at a concrete path length and progress value. -/
theorem tracked_index_in_bounds_witness :
    0 ≤ trackedIndex 5 (1/2)
    ∧ trackedIndex 5 (1/2) < (5 : ℤ)
    ∧ (trackedIndex 5 (1/2)).toNat < 5 :=
  tracked_index_in_bounds 5 (1/2) (by decide) (by decide) (by decide)

/-- Oracle for the transcendental library calls of the node: sinT i and
cosT i stand for std::sin(M_PI/18*i) and std::cos(M_PI/18*i), and hyp for
std::hypot.  The node only feeds their results into field operations,
comparisons and rounding, which the model performs exactly. -/
structure MathOracle where
  sinT : ℤ → ℚ
  cosT : ℤ → ℚ
  hyp : ℚ → ℚ → ℚ

/-- The inputs of generate_subgoal: the map snapshot, the final goal
position (reference frame), the base-to-reference transform, and the
node's path-start offset parameters. -/
structure SubgoalCfg where
  map : GridMap
  goal : Pt
  tfB2O : Rigid2
  offX : ℚ
  offY : ℚ

/-- Radial-search step length (0.6 m, `distance_resolution`). -/
def distanceResolution : ℚ := 6/10

/-- Preferred maximum subgoal range (8.0 m). -/
def preferSubgoalDistance : ℚ := 8

/-- Last distance step: `round(prefer_subgoal_distance / distance_resolution)`. -/
def maxDistanceIdx : ℤ := roundC (preferSubgoalDistance / distanceResolution)

/-- The inner-loop distance steps j = 3 .. maxDistanceIdx in order. -/
def jSteps : List ℤ :=
  (List.range (maxDistanceIdx - 2).toNat).map (fun k => 3 + (k : ℤ))

/-- The angle indices i = 16 down to 2, in the descending iteration order
of the C++ loop. -/
def rayIdxs : List ℤ :=
  (List.range 15).map (fun k => 16 - (k : ℤ))

/-- The goal transformed into robot frame (tf_odom2base applied to the
goal position, with tf_odom2base the inverse of the given transform). -/
def goalBase (c : SubgoalCfg) : Pt :=
  rigidApply (rigidInv c.tfB2O) c.goal

/-- The out-of-range test of generate_subgoal: the goal's robot-frame cell
coordinate (int conversion truncates) reaches the map width or height.
When it holds the radial scored search runs; otherwise the transformed
goal is returned directly. -/
def subgoalOutOfRange (c : SubgoalCfg) : Bool :=
  if cppTrunc (((goalBase c).x - c.map.originX) / c.map.resolution) ≥ c.map.width
     ∨ cppTrunc (((goalBase c).y - c.map.originY) / c.map.resolution) ≥ c.map.height
  then true else false

/-- The cell index sampled by the radial search at angle index i and
distance step j (the candidate point plus the path-start offset,
rasterized). -/
def rayCellIdx (O : MathOracle) (c : SubgoalCfg) (i j : ℤ) : ℤ :=
  let tmp := distanceResolution * (j : ℚ)
  roundC ((tmp * O.cosT i - c.map.originY + c.offY) / c.map.resolution) * c.map.width
    + roundC ((tmp * O.sinT i - c.map.originX + c.offX) / c.map.resolution)

/-- The ray-stop test of the radial search: sampling continues while the
smoothed cost does not exceed the danger threshold and the raw cell is
not unknown. -/
def rayCellSafe (O : MathOracle) (c : SubgoalCfg) (i j : ℤ) : Bool :=
  if get_local_max_cost c.map (rayCellIdx O c i j) > kThresObstacleDangerCost
     ∨ c.map.data (rayCellIdx O c i j) = -1
  then false else true

/-- The candidate score at angle index i and distance step j:
`(1 - cost/100) + (1 - distanceToGoal / D / 2)` with D the robot-to-goal
distance, exactly as the C++ writes it. -/
def rayScore (O : MathOracle) (c : SubgoalCfg) (i j : ℤ) : ℚ :=
  let gb := goalBase c
  let disBase2goal := O.hyp gb.x gb.y
  let tmp := distanceResolution * (j : ℚ)
  let disSub2final := O.hyp (tmp * O.sinT i + c.offX - gb.x)
                            (tmp * O.cosT i + c.offY - gb.y)
  (1 - (get_local_max_cost c.map (rayCellIdx O c i j) : ℚ) / 100)
    + (1 - disSub2final / disBase2goal / 2)

/-- The inner j-loop of one ray: stop at the first unsafe cell, otherwise
keep the (score, j) state, replacing it when the new score is strictly
larger (initial state (0, 0)). -/
def rayScan (O : MathOracle) (c : SubgoalCfg) (i : ℤ) :
    List ℤ → ℚ × ℤ → ℚ × ℤ
  | [], st => st
  | j :: rest, st =>
    if rayCellSafe O c i j = true then
      rayScan O c i rest
        (if st.1 < rayScore O c i j then (rayScore O c i j, j) else st)
    else st

/-- The recorded (best score, best distance step) of angle index i. -/
def rayResult (O : MathOracle) (c : SubgoalCfg) (i : ℤ) : ℚ × ℤ :=
  rayScan O c i jSteps (0, 0)

/-- The candidate endpoint of angle index i: the path-start offset plus
the recorded distance along the ray direction (the point stored at
points[2k+1] for this ray in the C++ marker list). -/
def rayPoint (O : MathOracle) (c : SubgoalCfg) (i : ℤ) : Pt :=
  let tmp := distanceResolution * (((rayResult O c i).2 : ℤ) : ℚ)
  ⟨c.offX + tmp * O.sinT i, c.offY + tmp * O.cosT i⟩

/-- std::max_element as the node uses it: scan the list keeping the
element with the largest key, a later element replacing the kept one only
when its key is strictly larger (so ties keep the first). -/
def pickBest {α : Type} (f : α → ℚ) : List α → α → α
  | [], a => a
  | x :: r, a => pickBest f r (if f a < f x then x else a)

/-- generate_subgoal: if the goal's robot-frame cell reaches the map
bounds, run the radial scored search over the 15 rays and return the
candidate point of the first angle (in descending-i order) attaining the
largest recorded score; otherwise return the transformed goal directly. -/
def generate_subgoal (O : MathOracle) (c : SubgoalCfg) : Pt :=
  if subgoalOutOfRange c = true then
    match rayIdxs.map (fun i => ((rayResult O c i).1, rayPoint O c i)) with
    | [] => ⟨0, 0⟩
    | hd :: tl => (pickBest Prod.fst tl hd).2
  else goalBase c

/-- C2.  Whenever the goal's robot-frame cell lies within the map's
width/height bounds, the out-of-range test is false and generate_subgoal
returns the transformed goal directly, for every map, goal, transform and
oracle — the radial scored search is not invoked. -/
theorem subgoal_direct_when_goal_in_map (O : MathOracle) (c : SubgoalCfg)
    (hx0 : 0 ≤ cppTrunc (((goalBase c).x - c.map.originX) / c.map.resolution))
    (hxw : cppTrunc (((goalBase c).x - c.map.originX) / c.map.resolution) < c.map.width)
    (hy0 : 0 ≤ cppTrunc (((goalBase c).y - c.map.originY) / c.map.resolution))
    (hyh : cppTrunc (((goalBase c).y - c.map.originY) / c.map.resolution) < c.map.height) :
    subgoalOutOfRange c = false ∧ generate_subgoal O c = goalBase c := by
  have h : subgoalOutOfRange c = false := by
    unfold subgoalOutOfRange
    rw [if_neg]
    push_neg
    exact ⟨by omega, by omega⟩
  refine ⟨h, ?_⟩
  unfold generate_subgoal
  rw [h]
  simp

/-- Map for the C2 witness: 10 x 10 grid, resolution 1, origin (-5, -5). -/
def c2Map : GridMap := ⟨1, -5, -5, 10, 10, fun _ => 0⟩

/-- Inputs for the C2 witness: identity transform, goal at (1, 2). -/
def c2Cfg : SubgoalCfg := ⟨c2Map, ⟨1, 2⟩, rigidId, 11/25, 0⟩

/-- Oracle for the C2 witness (its values are never reached on the direct
branch). -/
def c2Oracle : MathOracle := ⟨fun _ => 0, fun _ => 1, fun a b => |a| + |b|⟩

/-- Witness for C2: the goal cell (6, 7) is inside the 10 x 10 map and the
transformed goal comes back unchanged. -/
theorem subgoal_direct_when_goal_in_map_witness :
    subgoalOutOfRange c2Cfg = false ∧ generate_subgoal c2Oracle c2Cfg = goalBase c2Cfg :=
  subgoal_direct_when_goal_in_map c2Oracle c2Cfg
    (by decide) (by decide) (by decide) (by decide)

/-- Unfolding step of the max_element scan. -/
lemma pickBest_cons {α : Type} (f : α → ℚ) (x : α) (r : List α) (a : α) :
    pickBest f (x :: r) a = pickBest f r (if f a < f x then x else a) := rfl

/-- The max_element scan keeps its start element when nothing beats it;
otherwise the kept element splits the list so that everything before it
scores strictly below it and nothing anywhere scores above it. -/
lemma pickBest_spec {α : Type} (f : α → ℚ) :
    ∀ (L : List α) (a : α),
      (pickBest f L a = a ∧ ∀ x ∈ L, f x ≤ f a)
      ∨ (f a < f (pickBest f L a)
         ∧ (∀ x ∈ L, f x ≤ f (pickBest f L a))
         ∧ ∃ L1 L2, L = L1 ++ pickBest f L a :: L2
             ∧ ∀ x ∈ L1, f x < f (pickBest f L a)) := by
  intro L
  induction L with
  | nil => intro a; exact Or.inl ⟨rfl, by simp⟩
  | cons x r ih =>
      intro a
      rw [pickBest_cons]
      by_cases hx : f a < f x
      · rw [if_pos hx]
        rcases ih x with ⟨heq, hall⟩ | ⟨hlt, hall, L1, L2, hsplit, hstrict⟩
        · refine Or.inr ⟨heq.symm ▸ hx, ?_, [], r, ?_, by simp⟩
          · intro z hz
            rcases List.mem_cons.mp hz with h | h
            · rw [h, heq]
            · exact heq.symm ▸ hall z h
          · rw [heq, List.nil_append]
        · refine Or.inr ⟨lt_trans hx hlt, ?_, x :: L1, L2, ?_, ?_⟩
          · intro z hz
            rcases List.mem_cons.mp hz with h | h
            · rw [h]; exact le_of_lt hlt
            · exact hall z h
          · conv_lhs => rw [hsplit]
            rfl
          · intro z hz
            rcases List.mem_cons.mp hz with h | h
            · rw [h]; exact hlt
            · exact hstrict z h
      · rw [if_neg hx]
        rcases ih a with ⟨heq, hall⟩ | ⟨hlt, hall, L1, L2, hsplit, hstrict⟩
        · refine Or.inl ⟨heq, ?_⟩
          intro z hz
          rcases List.mem_cons.mp hz with h | h
          · exact h ▸ le_of_not_lt hx
          · exact hall z h
        · refine Or.inr ⟨hlt, ?_, x :: L1, L2, ?_, ?_⟩
          · intro z hz
            rcases List.mem_cons.mp hz with h | h
            · rw [h]; exact le_of_lt (lt_of_le_of_lt (le_of_not_lt hx) hlt)
            · exact hall z h
          · conv_lhs => rw [hsplit]
            rfl
          · intro z hz
            rcases List.mem_cons.mp hz with h | h
            · rw [h]; exact lt_of_le_of_lt (le_of_not_lt hx) hlt
            · exact hstrict z h

/-- pickBest over a whole nonempty list: every element's key is bounded by
the kept element's key, and everything before the kept element in the list
scores strictly below it (the tie-break keeps the first maximum). -/
lemma pickBest_cons_spec {α : Type} (f : α → ℚ) (x : α) (t : List α) :
    (∀ z ∈ x :: t, f z ≤ f (pickBest f t x))
    ∧ ∃ L1 L2, x :: t = L1 ++ pickBest f t x :: L2
        ∧ ∀ z ∈ L1, f z < f (pickBest f t x) := by
  rcases pickBest_spec f t x with ⟨heq, hall⟩ | ⟨hlt, hall, L1, L2, hsplit, hstrict⟩
  · refine ⟨?_, [], t, by rw [heq, List.nil_append], by simp⟩
    intro z hz
    rcases List.mem_cons.mp hz with h | h
    · rw [h, heq]
    · exact heq.symm ▸ hall z h
  · refine ⟨?_, x :: L1, L2, ?_, ?_⟩
    · intro z hz
      rcases List.mem_cons.mp hz with h | h
      · rw [h]; exact le_of_lt hlt
      · exact hall z h
    · conv_lhs => rw [hsplit]
      rfl
    · intro z hz
      rcases List.mem_cons.mp hz with h | h
      · rw [h]; exact hlt
      · exact hstrict z h

/-- Every element of a list is either the scan's start value or a member. -/
lemma pickBest_mem {α : Type} (f : α → ℚ) :
    ∀ (L : List α) (a : α), pickBest f L a = a ∨ pickBest f L a ∈ L := by
  intro L
  induction L with
  | nil => intro a; exact Or.inl rfl
  | cons x r ih =>
      intro a
      rw [pickBest_cons]
      by_cases hx : f a < f x
      · rw [if_pos hx]
        rcases ih x with h | h
        · exact Or.inr (by rw [h]; exact List.mem_cons_self x r)
        · exact Or.inr (List.mem_cons_of_mem x h)
      · rw [if_neg hx]
        rcases ih a with h | h
        · exact Or.inl h
        · exact Or.inr (List.mem_cons_of_mem x h)

/-- pickBest keeps its start element when no key beats the start key. -/
lemma pickBest_of_all_le {α : Type} (f : α → ℚ) (L : List α) (a : α)
    (h : ∀ x ∈ L, f x ≤ f a) : pickBest f L a = a := by
  rcases pickBest_spec f L a with ⟨heq, _⟩ | ⟨hlt, _, _, _, _, _⟩
  · exact heq
  · rcases pickBest_mem f L a with h2 | h2
    · rw [h2]
    · exact absurd (h _ h2) (not_le.mpr hlt)

/-- A list mapping to an append with a distinguished middle element splits
accordingly. -/
lemma map_eq_append_cons {α β : Type} (g : α → β) :
    ∀ (L1 : List β) (l : List α) (r : β) (L2 : List β),
      l.map g = L1 ++ r :: L2 →
      ∃ l1 x l2, l = l1 ++ x :: l2 ∧ l1.map g = L1 ∧ g x = r ∧ l2.map g = L2 := by
  intro L1
  induction L1 with
  | nil =>
      intro l r L2 h
      cases l with
      | nil => simp at h
      | cons a l2 =>
          simp only [List.map_cons, List.nil_append, List.cons.injEq] at h
          exact ⟨[], a, l2, rfl, rfl, h.1, h.2⟩
  | cons b L1 ih =>
      intro l r L2 h
      cases l with
      | nil => simp at h
      | cons a l2 =>
          simp only [List.map_cons, List.cons_append, List.cons.injEq] at h
          obtain ⟨l1, x, l2b, he, hm1, hx, hm2⟩ := ih l2 r L2 h.2
          exact ⟨a :: l1, x, l2b, by rw [he]; rfl, by simp [hm1, h.1], hx, hm2⟩

/-- The distance steps a ray actually samples: the loop stops at the first
step whose cell fails the safety test, so the sampled steps are the
longest all-safe prefix of the step list. -/
def raySafeJs (O : MathOracle) (c : SubgoalCfg) (i : ℤ) : List ℤ :=
  jSteps.takeWhile (fun j => rayCellSafe O c i j)

/-- Unfolding step of the ray scan. -/
lemma rayScan_cons (O : MathOracle) (c : SubgoalCfg) (i j : ℤ) (rest : List ℤ)
    (st : ℚ × ℤ) :
    rayScan O c i (j :: rest) st
      = if rayCellSafe O c i j = true then
          rayScan O c i rest
            (if st.1 < rayScore O c i j then (rayScore O c i j, j) else st)
        else st := rfl

/-- The ray scan is the max_element fold over the scored all-safe prefix. -/
lemma rayScan_eq_pickBest (O : MathOracle) (c : SubgoalCfg) (i : ℤ) :
    ∀ (L : List ℤ) (st : ℚ × ℤ),
      rayScan O c i L st
        = pickBest Prod.fst
            ((L.takeWhile (fun j => rayCellSafe O c i j)).map
              (fun j => (rayScore O c i j, j))) st := by
  intro L
  induction L with
  | nil => intro st; rfl
  | cons j rest ih =>
      intro st
      rw [rayScan_cons]
      by_cases h : rayCellSafe O c i j = true
      · rw [if_pos h]
        have htw : (j :: rest).takeWhile (fun j => rayCellSafe O c i j)
            = j :: rest.takeWhile (fun j => rayCellSafe O c i j) := by
          simp [List.takeWhile_cons, h]
        rw [htw, List.map_cons, pickBest_cons, ih]
      · rw [if_neg h]
        have htw : (j :: rest).takeWhile (fun j => rayCellSafe O c i j) = [] := by
          simp [List.takeWhile_cons, h]
        rw [htw]
        rfl

/-- The recorded state of one ray as the max_element fold over its scored
safe prefix. -/
lemma rayResult_eq_pickBest (O : MathOracle) (c : SubgoalCfg) (i : ℤ) :
    rayResult O c i
      = pickBest Prod.fst
          ((raySafeJs O c i).map (fun j => (rayScore O c i j, j))) (0, 0) :=
  rayScan_eq_pickBest O c i jSteps (0, 0)

/-- The distance steps are strictly increasing. -/
lemma jSteps_sorted : jSteps.Pairwise (fun a b => a < b) := by decide

/-- The angle indices are 16 down to 2. -/
lemma rayIdxs_eq :
    rayIdxs = [16, 15, 14, 13, 12, 11, 10, 9, 8, 7, 6, 5, 4, 3, 2] := by decide

/-- The angle indices are strictly decreasing. -/
lemma rayIdxs_sorted : rayIdxs.Pairwise (fun a b => b < a) := by decide

/-- Per-ray behaviour of the radial scored search, stated over the safe
prefix of sampled distance steps (the claim as amended): when some safe
candidate scores strictly above 0 the ray records the strictly largest
score and the first (hence smallest) step attaining it; when no safe
candidate scores above 0 the ray records (0, 0), keeping no candidate. -/
def RayCharacterization (O : MathOracle) (c : SubgoalCfg) : Prop :=
  ∀ i ∈ rayIdxs,
    ((∃ j ∈ raySafeJs O c i, 0 < rayScore O c i j) →
      ∃ j ∈ raySafeJs O c i,
        rayResult O c i = (rayScore O c i j, j)
        ∧ 0 < rayScore O c i j
        ∧ (∀ j2 ∈ raySafeJs O c i, rayScore O c i j2 ≤ rayScore O c i j)
        ∧ (∀ j2 ∈ raySafeJs O c i, rayScore O c i j2 = rayScore O c i j → j ≤ j2))
    ∧ ((∀ j ∈ raySafeJs O c i, rayScore O c i j ≤ 0) → rayResult O c i = (0, 0))

/-- Final selection of the radial scored search: the returned point is the
candidate point of an angle whose recorded score no other angle exceeds,
and every angle coming earlier in the descending-i iteration order scores
strictly below it (ties keep the first angle encountered). -/
def SelectionCharacterization (O : MathOracle) (c : SubgoalCfg) : Prop :=
  ∃ i ∈ rayIdxs,
    generate_subgoal O c = rayPoint O c i
    ∧ (∀ i2 ∈ rayIdxs, (rayResult O c i2).1 ≤ (rayResult O c i).1)
    ∧ (∀ i2 ∈ rayIdxs, i < i2 → (rayResult O c i2).1 < (rayResult O c i).1)

/-- C1 (amended).  For every oracle and configuration that enters the
radial search, each ray records the strictly largest candidate score of
its safe sampled prefix together with the smallest step attaining it,
provided that score is strictly positive — a ray whose safe candidates
all score at most 0 records (0, 0) instead — and the returned point is
the candidate of the first angle, in descending-i order, attaining the
largest recorded score. -/
theorem radial_search_characterization (O : MathOracle) (c : SubgoalCfg)
    (hrange : subgoalOutOfRange c = true) :
    RayCharacterization O c ∧ SelectionCharacterization O c := by
  constructor
  · intro i _
    have hres := rayResult_eq_pickBest O c i
    have hPsort : (raySafeJs O c i).Pairwise (fun a b => a < b) :=
      List.Pairwise.sublist (List.takeWhile_sublist _) jSteps_sorted
    rcases pickBest_spec Prod.fst
        ((raySafeJs O c i).map (fun j => (rayScore O c i j, j))) (0, 0) with
      ⟨heq, hall⟩ | ⟨hlt, hall, L1, L2, hsplit, hstrict⟩
    · constructor
      · rintro ⟨j, hjP, hjpos⟩
        have := hall (rayScore O c i j, j) (List.mem_map_of_mem _ hjP)
        exact absurd hjpos (not_lt.mpr this)
      · intro _
        rw [hres, heq]
    · obtain ⟨P1, j0, P2, hP, hm1, hgj0, hm2⟩ :=
        map_eq_append_cons (fun j => (rayScore O c i j, j)) L1 (raySafeJs O c i)
          _ L2 hsplit
      have hj0mem : j0 ∈ raySafeJs O c i := by
        rw [hP]
        exact List.mem_append_right _ (List.mem_cons_self _ _)
      have hfst : (pickBest Prod.fst
          ((raySafeJs O c i).map (fun j => (rayScore O c i j, j))) (0, 0)).1
          = rayScore O c i j0 := by
        rw [← hgj0]
      have hpos : 0 < rayScore O c i j0 := by
        rw [← hfst]
        exact hlt
      have hbound : ∀ j2 ∈ raySafeJs O c i,
          rayScore O c i j2 ≤ rayScore O c i j0 := by
        intro j2 hj2
        have := hall (rayScore O c i j2, j2) (List.mem_map_of_mem _ hj2)
        rw [hfst] at this
        exact this
      have hj0bIn : ∀ b ∈ P2, j0 < b := by
        have hs := hP ▸ hPsort
        rcases List.pairwise_append.mp hs with ⟨_, h2, _⟩
        exact fun b hb => (List.pairwise_cons.mp h2).1 b hb
      constructor
      · intro _
        refine ⟨j0, hj0mem, ?_, hpos, hbound, ?_⟩
        · rw [hres, ← hgj0]
        · intro j2 hj2 hEq
          rw [hP] at hj2
          rcases List.mem_append.mp hj2 with h | h
          · exfalso
            have : (rayScore O c i j2, j2) ∈ L1 := by
              rw [← hm1]
              exact List.mem_map_of_mem _ h
            have := hstrict _ this
            rw [hfst] at this
            exact absurd hEq (ne_of_lt this)
          · rcases List.mem_cons.mp h with h | h
            · exact le_of_eq h.symm
            · exact le_of_lt (hj0bIn j2 h)
      · intro hle
        exact absurd (hle j0 hj0mem) (not_le.mpr hpos)
  · have hlist : rayIdxs.map (fun i => ((rayResult O c i).1, rayPoint O c i))
        = ((rayResult O c 16).1, rayPoint O c 16)
          :: ([15, 14, 13, 12, 11, 10, 9, 8, 7, 6, 5, 4, 3, 2].map
              (fun i => ((rayResult O c i).1, rayPoint O c i))) := by
      rw [rayIdxs_eq]
      rfl
    have hgen : generate_subgoal O c
        = (pickBest Prod.fst
            ([15, 14, 13, 12, 11, 10, 9, 8, 7, 6, 5, 4, 3, 2].map
              (fun i => ((rayResult O c i).1, rayPoint O c i)))
            (((rayResult O c 16).1, rayPoint O c 16))).2 := by
      unfold generate_subgoal
      rw [if_pos hrange, hlist]
    obtain ⟨hallb, L1, L2, hsplitb, hstrictb⟩ :=
      pickBest_cons_spec Prod.fst (((rayResult O c 16).1, rayPoint O c 16))
        ([15, 14, 13, 12, 11, 10, 9, 8, 7, 6, 5, 4, 3, 2].map
          (fun i => ((rayResult O c i).1, rayPoint O c i)))
    have hmapsplit : rayIdxs.map (fun i => ((rayResult O c i).1, rayPoint O c i))
        = L1 ++ (pickBest Prod.fst
            ([15, 14, 13, 12, 11, 10, 9, 8, 7, 6, 5, 4, 3, 2].map
              (fun i => ((rayResult O c i).1, rayPoint O c i)))
            (((rayResult O c 16).1, rayPoint O c 16))) :: L2 := by
      rw [hlist]
      exact hsplitb
    obtain ⟨I1, i0, I2, hI, hm1, hgi0, hm2⟩ :=
      map_eq_append_cons (fun i => ((rayResult O c i).1, rayPoint O c i)) L1
        rayIdxs _ L2 hmapsplit
    have hi0mem : i0 ∈ rayIdxs := by
      rw [hI]
      exact List.mem_append_right _ (List.mem_cons_self _ _)
    have hfst : (pickBest Prod.fst
        ([15, 14, 13, 12, 11, 10, 9, 8, 7, 6, 5, 4, 3, 2].map
          (fun i => ((rayResult O c i).1, rayPoint O c i)))
        (((rayResult O c 16).1, rayPoint O c 16))).1 = (rayResult O c i0).1 := by
      rw [← hgi0]
    refine ⟨i0, hi0mem, ?_, ?_, ?_⟩
    · rw [hgen, ← hgi0]
    · intro i2 hi2
      have hmem : ((rayResult O c i2).1, rayPoint O c i2)
          ∈ ((rayResult O c 16).1, rayPoint O c 16)
            :: ([15, 14, 13, 12, 11, 10, 9, 8, 7, 6, 5, 4, 3, 2].map
                (fun i => ((rayResult O c i).1, rayPoint O c i))) := by
        rw [← hlist]
        exact List.mem_map_of_mem _ hi2
      have := hallb _ hmem
      rw [hfst] at this
      exact this
    · intro i2 hi2 hlt2
      rw [hI] at hi2
      rcases List.mem_append.mp hi2 with h | h
      · have hmemL1 : ((rayResult O c i2).1, rayPoint O c i2) ∈ L1 := by
          rw [← hm1]
          exact List.mem_map_of_mem _ h
        have := hstrictb _ hmemL1
        rw [hfst] at this
        exact this
      · rcases List.mem_cons.mp h with h | h
        · exact absurd (h ▸ hlt2) (lt_irrefl i0)
        · exfalso
          have hs := hI ▸ rayIdxs_sorted
          rcases List.pairwise_append.mp hs with ⟨_, h2, _⟩
          have := (List.pairwise_cons.mp h2).1 i2 h
          omega

/-- Rational sine table at the search angles 10°·i (exact at i = 9 where
sin(90°) = 1; elsewhere the usual 4-decimal values — only the i = 9 entry
is reached by a scored candidate in the counterexample configuration). -/
def cexSin : ℤ → ℚ := fun i =>
  if i = 2 then 342/1000 else if i = 3 then 1/2
  else if i = 4 then 6428/10000 else if i = 5 then 766/1000
  else if i = 6 then 866/1000 else if i = 7 then 9397/10000
  else if i = 8 then 9848/10000 else if i = 9 then 1
  else if i = 10 then 9848/10000 else if i = 11 then 9397/10000
  else if i = 12 then 866/1000 else if i = 13 then 766/1000
  else if i = 14 then 6428/10000 else if i = 15 then 1/2
  else if i = 16 then 342/1000 else 0

/-- Rational cosine table at the search angles 10°·i (exact at i = 9). -/
def cexCos : ℤ → ℚ := fun i =>
  if i = 2 then 9397/10000 else if i = 3 then 866/1000
  else if i = 4 then 766/1000 else if i = 5 then 6428/10000
  else if i = 6 then 1/2 else if i = 7 then 342/1000
  else if i = 8 then 1736/10000 else if i = 9 then 0
  else if i = 10 then -(1736/10000) else if i = 11 then -(342/1000)
  else if i = 12 then -(1/2) else if i = 13 then -(6428/10000)
  else if i = 14 then -(766/1000) else if i = 15 then -(866/1000)
  else if i = 16 then -(9397/10000) else 0

/-- Hypotenuse oracle: exact std::hypot whenever one argument is 0, which
is the case at every hypot call the counterexample configuration reaches
(the goal and the scored ray both lie on the robot's y = 0 axis). -/
def cexHyp : ℚ → ℚ → ℚ := fun a b => |a| + |b|

/-- Oracle of the C1 counterexample. -/
def cexOracle : MathOracle := ⟨cexSin, cexCos, cexHyp⟩

/-- Map of the C1 counterexample: 20 x 5 grid, resolution 0.6, origin
(-3, -3); every in-range cell is unknown (-1); the out-of-range linear
indices 108..118 (the cells ray i = 9 rasterizes to) read 0. -/
def cexMap : GridMap :=
  ⟨3/5, -3, -3, 20, 5, fun idx => if 108 ≤ idx ∧ idx ≤ 118 then 0 else -1⟩

/-- Configuration of the C1 counterexample: identity transform, goal at
(0.3, 0), zero path-start offsets.  The goal's robot-frame row cell is
int(3/0.6) = 5 ≥ height = 5, so the radial search runs, and the
robot-to-goal distance D is only 0.3 m, which makes every candidate of
ray i = 9 score 2.5 - j < 0. -/
def cexCfg : SubgoalCfg := ⟨cexMap, ⟨3/10, 0⟩, rigidId, 0, 0⟩

/-- Counterexample to C1 as stated: in the counterexample configuration
the radial search runs and ray i = 9 samples the full safe prefix
j = 3..13, whose strictly largest score is attained at j = 3 — yet the
ray keeps no step at all (its recorded state is (0, 0), not the scored
candidate (score(3), 3)), because every score is negative and the running
maximum starts at 0. -/
theorem radial_search_counterexample :
    subgoalOutOfRange cexCfg = true
    ∧ raySafeJs cexOracle cexCfg 9 = jSteps
    ∧ rayScore cexOracle cexCfg 9 3 < 0
    ∧ (∀ j ∈ jSteps, j ≠ 3 →
        rayScore cexOracle cexCfg 9 j < rayScore cexOracle cexCfg 9 3)
    ∧ rayResult cexOracle cexCfg 9 = (0, 0)
    ∧ rayResult cexOracle cexCfg 9 ≠ (rayScore cexOracle cexCfg 9 3, 3) := by
  set_option maxRecDepth 4000 in decide

/-- Witness for C1 (amended) at the counterexample configuration. -/
theorem radial_search_characterization_witness :
    RayCharacterization cexOracle cexCfg ∧ SelectionCharacterization cexOracle cexCfg :=
  radial_search_characterization cexOracle cexCfg (by decide)

/-- C10.  If the radial search is entered and every ray records (0, 0)
(no safe cell scored above 0 anywhere), generate_subgoal returns the fixed
path-start offset point — (0.44, 0) at the default parameters — which is
distinct from the (0, 0) sentinel of the unsafe-subgoal recovery. -/
theorem subgoal_search_dead_returns_offset (O : MathOracle) (c : SubgoalCfg)
    (hrange : subgoalOutOfRange c = true)
    (hdead : ∀ i ∈ rayIdxs, rayResult O c i = (0, 0))
    (hx : c.offX = 11/25) (hy : c.offY = 0) :
    generate_subgoal O c = ⟨11/25, 0⟩ ∧ (⟨11/25, 0⟩ : Pt) ≠ ⟨0, 0⟩ := by
  have h16 : (16 : ℤ) ∈ rayIdxs := by
    rw [rayIdxs_eq]
    exact List.mem_cons_self _ _
  have hpt16 : rayPoint O c 16 = ⟨c.offX, c.offY⟩ := by
    simp [rayPoint, hdead 16 h16]
  have hgen : generate_subgoal O c
      = (pickBest Prod.fst
          ([15, 14, 13, 12, 11, 10, 9, 8, 7, 6, 5, 4, 3, 2].map
            (fun i => ((rayResult O c i).1, rayPoint O c i)))
          (((rayResult O c 16).1, rayPoint O c 16))).2 := by
    unfold generate_subgoal
    rw [if_pos hrange,
      show rayIdxs.map (fun i => ((rayResult O c i).1, rayPoint O c i))
        = ((rayResult O c 16).1, rayPoint O c 16)
          :: ([15, 14, 13, 12, 11, 10, 9, 8, 7, 6, 5, 4, 3, 2].map
              (fun i => ((rayResult O c i).1, rayPoint O c i))) from by
        rw [rayIdxs_eq]; rfl]
  have hall : ∀ z ∈ ([15, 14, 13, 12, 11, 10, 9, 8, 7, 6, 5, 4, 3, 2].map
      (fun i => ((rayResult O c i).1, rayPoint O c i))),
      Prod.fst z ≤ Prod.fst (((rayResult O c 16).1, rayPoint O c 16)) := by
    intro z hz
    obtain ⟨i, hi, rfl⟩ := List.mem_map.mp hz
    have hiR : i ∈ rayIdxs := by
      rw [rayIdxs_eq]
      exact List.mem_cons_of_mem _ hi
    rw [hdead i hiR, hdead 16 h16]
  rw [hgen, pickBest_of_all_le _ _ _ hall]
  refine ⟨?_, by decide⟩
  show rayPoint O c 16 = _
  rw [hpt16, hx, hy]

/-- Oracle for the C10 witness (every ray breaks at its first step, so the
values are immaterial). -/
def c10Oracle : MathOracle := ⟨fun _ => 0, fun _ => 1, fun a b => |a| + |b|⟩

/-- All-unknown map for the C10 witness (same geometry as the C1
counterexample map). -/
def c10Map : GridMap := ⟨3/5, -3, -3, 20, 5, fun _ => -1⟩

/-- Configuration for the C10 witness: default path-start offsets
(0.44, 0); the goal's row cell is at the map height, so the search runs. -/
def c10Cfg : SubgoalCfg := ⟨c10Map, ⟨3/10, 0⟩, rigidId, 11/25, 0⟩

/-- Witness for C10: on the all-unknown map every ray dies immediately and
the returned point is the default offset point (0.44, 0). -/
theorem subgoal_search_dead_returns_offset_witness :
    generate_subgoal c10Oracle c10Cfg = ⟨11/25, 0⟩ ∧ (⟨11/25, 0⟩ : Pt) ≠ ⟨0, 0⟩ :=
  subgoal_search_dead_returns_offset c10Oracle c10Cfg (by decide)
    (by set_option maxRecDepth 4000 in decide) rfl rfl

/-- The recovery qualification test on one waypoint (already transformed):
smoothed cost strictly below the danger threshold and raw cell cost known. -/
def wpSafeForRecovery (m : GridMap) (xf : Rigid2) (wp : Pt) : Bool :=
  if get_local_max_cost m (cellIdxOf m (rigidApply xf wp)) ≥ kThresObstacleDangerCost
     ∨ m.data (cellIdxOf m (rigidApply xf wp)) < 0
  then false else true

/-- The waypoint walk of approach_unsafe_subgoal: skip unsafe waypoints,
return the robot-frame transform of the first safe one, (0, 0) when the
walk ends. -/
def approachLoop (m : GridMap) (xf : Rigid2) : List Pt → Pt
  | [] => ⟨0, 0⟩
  | wp :: rest =>
    if get_local_max_cost m (cellIdxOf m (rigidApply xf wp)) ≥ kThresObstacleDangerCost
       ∨ m.data (cellIdxOf m (rigidApply xf wp)) < 0
    then approachLoop m xf rest
    else rigidApply xf wp

/-- approach_unsafe_subgoal: (0, 0) for a null or empty path, otherwise
the waypoint walk. -/
def approach_unsafe_subgoal (m : GridMap) (path : Option PathMsg) (xf : Rigid2) : Pt :=
  match path with
  | none => ⟨0, 0⟩
  | some pm =>
    match pm.poses with
    | [] => ⟨0, 0⟩
    | _ => approachLoop m xf pm.poses

/-- is_footprint_safe.  Modelled from the spec: the footprint
rasterization GetFootprintCells lives in localmap_utils.hpp, which is not
under src/, so the cells it yields are an oracle parameter ("rasterize
every footprint point into a grid cell"); the per-cell raw-cost test over
those cells is from the source. -/
def is_footprint_safe (footCells : Option (List Pt) → GridMap → List (ℤ × ℤ))
    (m : GridMap) (fp : Option (List Pt)) : Bool :=
  (footCells fp m).all (fun cell =>
    if m.data (cell.2 * m.width + cell.1) ≥ kThresObstacleDangerCost
       ∨ m.data (cell.2 * m.width + cell.1) < 0
    then false else true)

/-- The long-lived state of the node between callbacks. -/
structure NodeState where
  flagPlanningBusy : Bool
  localmap : Option GridMap
  footprint : Option (List Pt)
  walkablePath : Option PathMsg
  finalgoal : Option Pt
  trackingProgress : ℚ
  pathStartOffsetX : ℚ
  pathStartOffsetY : ℚ
  pathFrameId : String

/-- The per-invocation external inputs of a decision cycle: the transform
lookup result, the clock, the grid-search primitive (a_star.hpp is
external to the core, §6 of the spec), the footprint rasterization and
the math oracle. -/
structure NodeExt where
  tfB2O : Rigid2
  now : ℚ
  solver : GridMap → ℤ → ℤ → Option (List Pt)
  footCells : Option (List Pt) → GridMap → List (ℤ × ℤ)
  oracle : MathOracle

/-- Observable outputs of one decision cycle. -/
structure TimerOut where
  published : List PathMsg
  statusMarkers : List String
  solverCalled : Bool
  subgoalUsed : Option Pt
deriving DecidableEq, Repr

/-- No outputs. -/
def noOut : TimerOut := ⟨[], [], false, none⟩

/-- The empty path message the degraded branches publish
(header.stamp = ros::Time(), i.e. zero). -/
def emptyPathMsg (fr : String) : PathMsg := ⟨[], 0, fr⟩

/-- The subgoal-generator inputs assembled from the node state. -/
def subgoalCfgOf (s : NodeState) (m : GridMap) (g : Pt) (tf : Rigid2) : SubgoalCfg :=
  ⟨m, g, tf, s.pathStartOffsetX, s.pathStartOffsetY⟩

/-- The planning origin cell: a fixed forward offset from the robot
origin. -/
def originIdxOf (s : NodeState) (m : GridMap) : ℤ :=
  roundC ((-m.originY + s.pathStartOffsetY) / m.resolution) * m.width
    + roundC ((-m.originX + s.pathStartOffsetX) / m.resolution)

/-- localmap_cb: a map update is stored only while the single-flight flag
is down; otherwise it is silently dropped. -/
def localmap_cb (s : NodeState) (m : GridMap) : NodeState :=
  if s.flagPlanningBusy = true then s else { s with localmap := some m }

/-- timer_cb: the periodic decision cycle.  Re-entrance is rejected while
the flag is up; otherwise the flag is raised, the snapshots are read, the
predicates evaluated, one branch selected, and the flag released on every
exit path. -/
def timer_cb (e : NodeExt) (s : NodeState) : NodeState × TimerOut :=
  if s.flagPlanningBusy = true then (s, noOut)
  else
    match s.localmap, s.finalgoal with
    | none, _ => ({ s with flagPlanningBusy := false }, noOut)
    | some _, none => ({ s with flagPlanningBusy := false }, noOut)
    | some m, some g =>
      let tfO2B := rigidInv e.tfB2O
      let flagFootprintSafe := is_footprint_safe e.footCells m s.footprint
      let flagSubgoalSafe := is_subgoal_safe m s.walkablePath tfO2B
      let flagPathSafe := is_path_safe m s.walkablePath tfO2B
      let flagPathDeprecated := is_path_deprecated e.now s.walkablePath
      let flagFollowing := is_robot_following_path s.walkablePath s.trackingProgress tfO2B
      let disRobot2goal := e.oracle.hyp (e.tfB2O.tx - g.x) (e.tfB2O.ty - g.y)
      if flagFootprintSafe = false then
        ({ s with flagPlanningBusy := false },
         { published := [emptyPathMsg s.pathFrameId],
           statusMarkers := ["Collision detected"],
           solverCalled := false, subgoalUsed := none })
      else if disRobot2goal ≤ m.resolution * 2 then
        ({ s with finalgoal := none, walkablePath := none, flagPlanningBusy := false },
         { published := [emptyPathMsg s.pathFrameId],
           statusMarkers := ["finalgoal arrival"],
           solverCalled := false, subgoalUsed := none })
      else if (disRobot2goal ≤ 3/2 ∨ s.trackingProgress < 7/10)
          ∧ flagPathSafe = true ∧ flagFollowing = true ∧ flagPathDeprecated = false then
        ({ s with flagPlanningBusy := false },
         { published := s.walkablePath.elim [] (fun pm => [pm]),
           statusMarkers := [], solverCalled := false, subgoalUsed := none })
      else
        let subStat : Pt × List String :=
          if s.trackingProgress ≥ 7/10 then
            (generate_subgoal e.oracle (subgoalCfgOf s m g e.tfB2O),
             ["subgoal arrival, generate new subgoal"])
          else if s.walkablePath.isSome = true ∧ flagSubgoalSafe = false then
            let ap := approach_unsafe_subgoal m s.walkablePath tfO2B
            if ap.x = 0 ∧ ap.y = 0 then
              (generate_subgoal e.oracle (subgoalCfgOf s m g e.tfB2O),
               ["new subgoal is generated"])
            else (ap, ["approach unsafe subgoal"])
          else if s.walkablePath.isSome = true
              ∧ (flagPathSafe = false ∨ flagPathDeprecated = true) then
            (rigidApply tfO2B ((s.walkablePath.elim [] PathMsg.poses).getD 0 ⟨0, 0⟩),
             if flagPathSafe = false then ["old path is not safe"] else ["subgoal is too old"])
          else if s.walkablePath.isSome = true ∧ flagFollowing = false then
            (generate_subgoal e.oracle (subgoalCfgOf s m g e.tfB2O),
             ["robot is not on the path"])
          else
            (generate_subgoal e.oracle (subgoalCfgOf s m g e.tfB2O), [])
        match e.solver m (originIdxOf s m) (cellIdxOf m subStat.1) with
        | some poses =>
          let newPath : PathMsg :=
            { poses := poses.map (fun p => rigidApply e.tfB2O p),
              stamp := e.now, frameId := s.pathFrameId }
          ({ s with walkablePath := some newPath, flagPlanningBusy := false },
           { published := [newPath], statusMarkers := subStat.2,
             solverCalled := true, subgoalUsed := some subStat.1 })
        | none =>
          let newPath : PathMsg := { poses := [], stamp := 0, frameId := s.pathFrameId }
          ({ s with walkablePath := some newPath, flagPlanningBusy := false },
           { published := [newPath], statusMarkers := subStat.2,
             solverCalled := true, subgoalUsed := some subStat.1 })

/-- finalgoal_cb: the goal-assignment decision cycle.  It raises the flag
unconditionally, stores the goal, plans when a map is present and the
footprint is safe, clears the goal when the solver fails, and releases
the flag on every exit path. -/
def finalgoal_cb (e : NodeExt) (s : NodeState) (g : Pt) : NodeState × TimerOut :=
  let s1 : NodeState := { s with flagPlanningBusy := true, finalgoal := some g }
  match s1.localmap with
  | none =>
    ({ s1 with flagPlanningBusy := false },
     { published := [],
       statusMarkers := ["Empty localmap or unsafe footprint, skip finalgoal assignment."],
       solverCalled := false, subgoalUsed := none })
  | some m =>
    if is_footprint_safe e.footCells m s1.footprint = true then
      let sub := generate_subgoal e.oracle (subgoalCfgOf s1 m g e.tfB2O)
      match e.solver m (originIdxOf s1 m) (cellIdxOf m sub) with
      | some poses =>
        let newPath : PathMsg :=
          { poses := poses.map (fun p => rigidApply e.tfB2O p),
            stamp := e.now, frameId := s.pathFrameId }
        ({ s1 with walkablePath := some newPath, flagPlanningBusy := false },
         { published := [newPath], statusMarkers := [],
           solverCalled := true, subgoalUsed := some sub })
      | none =>
        let newPath : PathMsg := { poses := [], stamp := e.now, frameId := s.pathFrameId }
        ({ s1 with walkablePath := some newPath
                   finalgoal := none
                   flagPlanningBusy := false },
         { published := [newPath],
           statusMarkers := ["timeout for path planning to finalgoal, skip this finalgoal assignment."],
           solverCalled := true, subgoalUsed := some sub })
    else
      ({ s1 with flagPlanningBusy := false },
       { published := [],
         statusMarkers := ["Empty localmap or unsafe footprint, skip finalgoal assignment."],
         solverCalled := false, subgoalUsed := none })

/-- C4.  Single-flight discipline: a map update is accepted exactly when
the busy flag is down (and a busy update leaves the state untouched);
both decision cycles leave the flag down on every exit path; a busy timer
tick is a no-op; and any sequence of map updates arriving while the flag
is up leaves the whole state — in particular the stored map snapshot —
unchanged, so the snapshot is never replaced mid-cycle. -/
theorem single_flight_flag_discipline :
    (∀ (s : NodeState) (m : GridMap), s.flagPlanningBusy = false →
        (localmap_cb s m).localmap = some m)
    ∧ (∀ (s : NodeState) (m : GridMap), s.flagPlanningBusy = true →
        localmap_cb s m = s)
    ∧ (∀ (e : NodeExt) (s : NodeState), s.flagPlanningBusy = false →
        (timer_cb e s).1.flagPlanningBusy = false)
    ∧ (∀ (e : NodeExt) (s : NodeState) (g : Pt),
        (finalgoal_cb e s g).1.flagPlanningBusy = false)
    ∧ (∀ (e : NodeExt) (s : NodeState), s.flagPlanningBusy = true →
        timer_cb e s = (s, noOut))
    ∧ (∀ (s : NodeState) (ms : List GridMap), s.flagPlanningBusy = true →
        ms.foldl localmap_cb s = s) := by
  refine ⟨?_, ?_, ?_, ?_, ?_, ?_⟩
  · intro s m h
    unfold localmap_cb
    rw [if_neg (by simp [h])]
  · intro s m h
    unfold localmap_cb
    rw [if_pos h]
  · intro e s h
    unfold timer_cb
    rw [if_neg (by simp [h])]
    cases hm : s.localmap with
    | none => rfl
    | some m =>
        cases hg : s.finalgoal with
        | none => rfl
        | some g =>
            dsimp only
            split
            · rfl
            · split
              · rfl
              · split
                · rfl
                · split
                  · rfl
                  · rfl
  · intro e s g
    unfold finalgoal_cb
    cases hm : s.localmap with
    | none => rfl
    | some m =>
        dsimp only
        split
        · split
          · rfl
          · rfl
        · rfl
  · intro e s h
    unfold timer_cb
    rw [if_pos h]
  · intro s ms h
    induction ms with
    | nil => rfl
    | cons m rest ih =>
        simp only [List.foldl_cons]
        rw [show localmap_cb s m = s from by unfold localmap_cb; rw [if_pos h]]
        exact ih

/-- A busy node state for the C4 witness. -/
def c4BusyState : NodeState := ⟨true, none, none, none, none, 0, 11/25, 0, "odom"⟩

/-- An idle node state for the C4 witness. -/
def c4IdleState : NodeState := ⟨false, none, none, none, none, 0, 11/25, 0, "odom"⟩

/-- A small map for the C4 witness. -/
def c4Map : GridMap := ⟨1, 0, 0, 1, 1, fun _ => 0⟩

/-- External inputs for the node-level witnesses: identity transform,
failing solver, empty footprint rasterization. -/
def extDefault : NodeExt :=
  ⟨rigidId, 0, fun _ _ _ => none, fun _ _ => [],
   ⟨fun _ => 0, fun _ => 1, fun a b => |a| + |b|⟩⟩

/-- Witness for C4 at concrete states: two map updates dropped while busy,
one accepted while idle, and a busy tick is a no-op. -/
theorem single_flight_flag_discipline_witness :
    ([c4Map, c4Map].foldl localmap_cb c4BusyState = c4BusyState)
    ∧ (localmap_cb c4IdleState c4Map).localmap = some c4Map
    ∧ timer_cb extDefault c4BusyState = (c4BusyState, noOut)
    ∧ (timer_cb extDefault c4IdleState).1.flagPlanningBusy = false
    ∧ (finalgoal_cb extDefault c4IdleState ⟨1, 1⟩).1.flagPlanningBusy = false := by
  have h := single_flight_flag_discipline
  exact ⟨h.2.2.2.2.2 c4BusyState [c4Map, c4Map] rfl,
    h.1 c4IdleState c4Map rfl,
    h.2.2.2.2.1 extDefault c4BusyState rfl,
    h.2.2.1 extDefault c4IdleState rfl,
    h.2.2.2.1 extDefault c4IdleState ⟨1, 1⟩⟩

/-- C5.  Whenever a timer cycle runs with a map and a goal present and the
footprint predicate reports unsafe, the node publishes exactly one empty
path, emits the collision status, keeps the stored goal, path and map
snapshot unchanged, does not invoke the solver, and ends with the busy
flag released. -/
theorem collision_branch_effects (e : NodeExt) (s : NodeState) (m : GridMap) (g : Pt)
    (hflag : s.flagPlanningBusy = false)
    (hmap : s.localmap = some m)
    (hgoal : s.finalgoal = some g)
    (hfoot : is_footprint_safe e.footCells m s.footprint = false) :
    (timer_cb e s).1.finalgoal = s.finalgoal
    ∧ (timer_cb e s).1.walkablePath = s.walkablePath
    ∧ (timer_cb e s).1.localmap = s.localmap
    ∧ (timer_cb e s).1.flagPlanningBusy = false
    ∧ (timer_cb e s).2.published = [emptyPathMsg s.pathFrameId]
    ∧ (emptyPathMsg s.pathFrameId).poses = []
    ∧ (timer_cb e s).2.statusMarkers = ["Collision detected"]
    ∧ (timer_cb e s).2.solverCalled = false := by
  have ht : timer_cb e s
      = ({ s with flagPlanningBusy := false },
         { published := [emptyPathMsg s.pathFrameId],
           statusMarkers := ["Collision detected"],
           solverCalled := false, subgoalUsed := none }) := by
    unfold timer_cb
    rw [if_neg (by simp [hflag]), hmap, hgoal]
    dsimp only
    rw [hfoot]
    rw [if_pos rfl]
  rw [ht]
  exact ⟨rfl, rfl, rfl, rfl, rfl, rfl, rfl, rfl⟩

/-- Unsafe map for the C5 witness: the single cell is occupied. -/
def c5Map : GridMap := ⟨1, 0, 0, 1, 1, fun _ => 100⟩

/-- External inputs for the C5 witness: the footprint rasterizes to the
occupied cell, so the footprint is unsafe. -/
def c5Ext : NodeExt :=
  ⟨rigidId, 0, fun _ _ _ => none, fun _ _ => [(0, 0)],
   ⟨fun _ => 0, fun _ => 1, fun a b => |a| + |b|⟩⟩

/-- Node state for the C5 witness: idle, map and goal present, a stored
path that must survive the collision branch untouched. -/
def c5State : NodeState :=
  ⟨false, some c5Map, none, some ⟨[⟨1, 1⟩], 0, "odom"⟩, some ⟨5, 5⟩, 0, 11/25, 0, "odom"⟩

/-- Witness for C5 at the concrete collision configuration. -/
theorem collision_branch_effects_witness :
    (timer_cb c5Ext c5State).1.finalgoal = c5State.finalgoal
    ∧ (timer_cb c5Ext c5State).1.walkablePath = c5State.walkablePath
    ∧ (timer_cb c5Ext c5State).1.localmap = c5State.localmap
    ∧ (timer_cb c5Ext c5State).1.flagPlanningBusy = false
    ∧ (timer_cb c5Ext c5State).2.published = [emptyPathMsg c5State.pathFrameId]
    ∧ (emptyPathMsg c5State.pathFrameId).poses = []
    ∧ (timer_cb c5Ext c5State).2.statusMarkers = ["Collision detected"]
    ∧ (timer_cb c5Ext c5State).2.solverCalled = false :=
  collision_branch_effects c5Ext c5State c5Map ⟨5, 5⟩ rfl rfl rfl (by decide)

/-- The waypoint walk returns the transform of the first qualifying
waypoint, or (0, 0) when none qualifies. -/
lemma approachLoop_eq_find (m : GridMap) (xf : Rigid2) :
    ∀ (l : List Pt),
      approachLoop m xf l
        = (l.find? (fun wp => wpSafeForRecovery m xf wp)).elim
            (⟨0, 0⟩ : Pt) (fun wp => rigidApply xf wp) := by
  intro l
  induction l with
  | nil => rfl
  | cons wp rest ih =>
      by_cases hc : get_local_max_cost m (cellIdxOf m (rigidApply xf wp))
          ≥ kThresObstacleDangerCost ∨ m.data (cellIdxOf m (rigidApply xf wp)) < 0
      · have hpred : wpSafeForRecovery m xf wp = false := by
          unfold wpSafeForRecovery
          rw [if_pos hc]
        show (if _ ∨ _ then approachLoop m xf rest else _) = _
        rw [if_pos hc, List.find?_cons_of_neg _ (by simp [hpred])]
        exact ih
      · have hpred : wpSafeForRecovery m xf wp = true := by
          unfold wpSafeForRecovery
          rw [if_neg hc]
        show (if _ ∨ _ then _ else rigidApply xf wp) = _
        rw [if_neg hc, List.find?_cons_of_pos _ hpred]
        rfl

/-- C6.  approach_unsafe_subgoal returns the robot-frame transform of the
first waypoint, in path order, whose smoothed cost is below the danger
threshold and whose raw cell cost is known; when no waypoint qualifies,
or the path is null or empty, it returns the sentinel (0, 0); and in the
unsafe-subgoal branch of the timer cycle a sentinel answer makes the
caller fall back to full subgoal regeneration. -/
theorem approach_unsafe_subgoal_first_safe :
    (∀ (m : GridMap) (xf : Rigid2) (pm : PathMsg),
       approach_unsafe_subgoal m (some pm) xf
         = (pm.poses.find? (fun wp => wpSafeForRecovery m xf wp)).elim
             (⟨0, 0⟩ : Pt) (fun wp => rigidApply xf wp))
    ∧ (∀ (m : GridMap) (xf : Rigid2), approach_unsafe_subgoal m none xf = ⟨0, 0⟩)
    ∧ (∀ (e : NodeExt) (s : NodeState) (m : GridMap) (g : Pt),
       s.flagPlanningBusy = false →
       s.localmap = some m →
       s.finalgoal = some g →
       is_footprint_safe e.footCells m s.footprint = true →
       ¬ (e.oracle.hyp (e.tfB2O.tx - g.x) (e.tfB2O.ty - g.y) ≤ m.resolution * 2) →
       ¬ (s.trackingProgress ≥ 7/10) →
       is_path_safe m s.walkablePath (rigidInv e.tfB2O) = false →
       s.walkablePath.isSome = true →
       is_subgoal_safe m s.walkablePath (rigidInv e.tfB2O) = false →
       approach_unsafe_subgoal m s.walkablePath (rigidInv e.tfB2O) = ⟨0, 0⟩ →
       (timer_cb e s).2.subgoalUsed
           = some (generate_subgoal e.oracle (subgoalCfgOf s m g e.tfB2O))
         ∧ (timer_cb e s).2.statusMarkers = ["new subgoal is generated"]
         ∧ (timer_cb e s).2.solverCalled = true) := by
  refine ⟨?_, ?_, ?_⟩
  · intro m xf pm
    unfold approach_unsafe_subgoal
    dsimp only
    cases hp : pm.poses with
    | nil => rfl
    | cons wp rest => rw [approachLoop_eq_find m xf (wp :: rest)]
  · intro m xf
    rfl
  · intro e s m g hflag hmap hgoal hfoot hdis hprog hpsafe hsome hsg hap
    have hsteady : ¬ ((e.oracle.hyp (e.tfB2O.tx - g.x) (e.tfB2O.ty - g.y) ≤ 3/2
        ∨ s.trackingProgress < 7/10)
        ∧ is_path_safe m s.walkablePath (rigidInv e.tfB2O) = true
        ∧ is_robot_following_path s.walkablePath s.trackingProgress (rigidInv e.tfB2O) = true
        ∧ is_path_deprecated e.now s.walkablePath = false) := by
      intro hc
      rw [hpsafe] at hc
      exact absurd hc.2.1 (by simp)
    unfold timer_cb
    rw [if_neg (by simp [hflag]), hmap, hgoal]
    dsimp only
    rw [hfoot]
    rw [if_neg (by simp), if_neg hdis, if_neg hsteady, if_neg hprog,
      if_pos ⟨hsome, hsg⟩, hap]
    rw [if_pos ⟨rfl, rfl⟩]
    cases e.solver m (originIdxOf s m)
        (cellIdxOf m (generate_subgoal e.oracle (subgoalCfgOf s m g e.tfB2O))) with
    | none => exact ⟨rfl, rfl, rfl⟩
    | some poses => exact ⟨rfl, rfl, rfl⟩

/-- All-unknown single-cell map for the C6 witness. -/
def c6Map : GridMap := ⟨1, 0, 0, 1, 1, fun _ => -1⟩

/-- Stored path for the C6 witness: one waypoint on an unknown cell, so
the subgoal is unsafe and no recovery waypoint qualifies. -/
def c6Path : PathMsg := ⟨[⟨5, 5⟩], 0, "odom"⟩

/-- Node state for the C6 witness. -/
def c6State : NodeState :=
  ⟨false, some c6Map, none, some c6Path, some ⟨5, 0⟩, 0, 0, 0, "odom"⟩

/-- External inputs for the C6 witness: empty footprint rasterization
(safe footprint), failing solver. -/
def c6Ext : NodeExt :=
  ⟨rigidId, 0, fun _ _ _ => none, fun _ _ => [],
   ⟨fun _ => 0, fun _ => 1, fun a b => |a| + |b|⟩⟩

/-- Witness for C6: the recovery scan returns the sentinel on the
concrete path, and the timer cycle falls back to a freshly generated
subgoal. -/
theorem approach_unsafe_subgoal_first_safe_witness :
    approach_unsafe_subgoal c6Map (some c6Path) (rigidInv c6Ext.tfB2O) = ⟨0, 0⟩
    ∧ (timer_cb c6Ext c6State).2.subgoalUsed
        = some (generate_subgoal c6Ext.oracle (subgoalCfgOf c6State c6Map ⟨5, 0⟩ c6Ext.tfB2O))
    ∧ (timer_cb c6Ext c6State).2.statusMarkers = ["new subgoal is generated"]
    ∧ (timer_cb c6Ext c6State).2.solverCalled = true := by
  have h := approach_unsafe_subgoal_first_safe
  have hcall := h.2.2 c6Ext c6State c6Map ⟨5, 0⟩ rfl rfl rfl (by decide) (by decide)
    (by decide) (by decide) rfl (by decide) (by decide)
  exact ⟨by decide, hcall.1, hcall.2.1, hcall.2.2⟩
